import Mathlib

/-!
# Verification of the `decon-spf` SPF record parser/builder

This file gives a shallow embedding of the `decon-spf` Rust crate
(`src/spf/mod.rs`, `src/mechanism/mechanism.rs`) and proves properties of
its parsing, building, appending and validation operations.

Rust `String` values are modelled as `List Char` (`RStr`).  Rust code that
can `panic!` (e.g. `Option::unwrap` on `None`, `Result::unwrap` on `Err`,
`unreachable!`) is modelled with an explicit `panics` outcome or with
`Option` results where `none` denotes the panic.

Code of the repository that is not part of the provided sources
(`helpers.rs`, `kinds.rs`, `errors.rs`, `validate.rs`) is modelled from the
specification; each such definition carries a doc comment beginning
`Modelled from the spec:`.  The third-party `ipnetwork` crate is modelled
by an executable parser/printer for the fragment of network literals the
claims exercise.
-/

set_option maxRecDepth 10000

deriving instance DecidableEq for Except

/-- Rust strings are modelled as lists of characters. -/
abbrev RStr := List Char

/-- Convert a Lean string literal to the `RStr` representation. -/
def str (s : String) : RStr := s.toList

/-! ## Basic string helpers (models of `str` methods used by the source) -/

/-- Model of Rust `str::starts_with`. -/
def lcStartsWith (pat s : RStr) : Bool := List.isPrefixOf pat s

/-- Model of Rust `str::ends_with`. -/
def lcEndsWith (pat s : RStr) : Bool := List.isPrefixOf pat.reverse s.reverse

/-- Model of Rust `str::contains` (substring containment). -/
def lcContains (pat : RStr) : RStr → Bool
  | [] => pat.isEmpty
  | c :: rest => List.isPrefixOf pat (c :: rest) || lcContains pat rest

/-- Model of Rust `str::strip_prefix`: `some` of the remainder when `pat`
is a prefix, otherwise `none`. -/
def stripPfx : RStr → RStr → Option RStr
  | [], s => some s
  | _ :: _, [] => none
  | p :: ps, c :: cs => if p = c then stripPfx ps cs else none

/-- Split on a separator character, keeping empty pieces
(model of Rust `str::split(c)`); always returns at least one piece. -/
def splitOnChar (sep : Char) : RStr → List RStr
  | [] => [[]]
  | c :: cs =>
    match splitOnChar sep cs with
    | [] => [[]]
    | h :: t => if c = sep then [] :: h :: t else (c :: h) :: t

/-- Model of Rust `str::split_whitespace`: split on whitespace runs,
dropping empty pieces. -/
def splitWs : RStr → List RStr
  | [] => []
  | c :: cs =>
    if c.isWhitespace then splitWs cs
    else
      match splitWs cs with
      | [] => [[c]]
      | h :: t =>
        match cs with
        | [] => [[c]]
        | c' :: _ => if c'.isWhitespace then [c] :: h :: t else (c :: h) :: t

/-- The piece of `s` after the rightmost occurrence of `c`
(the first item of Rust `str::rsplit(c)`); `s` itself when `c` is absent. -/
def afterLast (c : Char) (s : RStr) : RStr := (splitOnChar c s).getLastD []

/-! ## Qualifier and Kind

`src/mechanism/kinds.rs` and the qualifier module are not among the
provided sources; they are modelled from the spec (§3, §4.1) and are
consistent with the doc-test assertions in `src/mechanism/mechanism.rs`. -/

/-- Modelled from the spec: the 4-valued qualifier tag
(Pass/Fail/SoftFail/Neutral). -/
inductive Qualifier
  | Pass
  | Fail
  | SoftFail
  | Neutral
deriving DecidableEq

/-- Modelled from the spec: `Qualifier::as_str`, the 1-character text
encoding of a qualifier; Pass is elided (empty). -/
def Qualifier.as_str : Qualifier → RStr
  | .Pass => []
  | .Fail => ['-']
  | .SoftFail => ['~']
  | .Neutral => ['?']

/-- Modelled from the spec: the closed set of 9 directive kinds. -/
inductive Kind
  | Redirect
  | A
  | MX
  | Include
  | IpV4
  | IpV6
  | Ptr
  | Exists
  | All
deriving DecidableEq

/-- Modelled from the spec: `Kind::as_str`, the canonical text prefix of
each kind. -/
def Kind.as_str : Kind → RStr
  | .Redirect => str "redirect="
  | .A => str "a"
  | .MX => str "mx"
  | .Include => str "include:"
  | .IpV4 => str "ip4:"
  | .IpV6 => str "ip6:"
  | .Ptr => str "ptr"
  | .Exists => str "exists:"
  | .All => str "all"

/-- Modelled from the spec: capability predicate `Kind::is_ip_v4`. -/
def Kind.is_ip_v4 (k : Kind) : Bool := k = Kind.IpV4

/-- Modelled from the spec: capability predicate `Kind::is_ip_v6`. -/
def Kind.is_ip_v6 (k : Kind) : Bool := k = Kind.IpV6

/-! ## IpNetwork (model of the third-party `ipnetwork` crate) -/

/-- Model of `ipnetwork::IpNetwork`: an IPv4 or IPv6 network
(address fields plus CIDR prefix length). -/
inductive IpNetwork
  | v4 (a b c d : Nat) (plen : Nat)
  | v6 (g1 g2 g3 g4 g5 g6 g7 g8 : Nat) (plen : Nat)
deriving DecidableEq

/-- Model of `IpNetwork::is_ipv4`. -/
def IpNetwork.is_ipv4 : IpNetwork → Bool
  | .v4 .. => true
  | .v6 .. => false

/-- Model of `IpNetwork::is_ipv6`. -/
def IpNetwork.is_ipv6 : IpNetwork → Bool
  | .v4 .. => false
  | .v6 .. => true

/-- Decimal digits of a natural number, most significant first. -/
def natDecChars (n : Nat) : RStr :=
  (Nat.toDigits 10 n)

/-- Parse a nonempty all-decimal-digit string. -/
def parseNatDec (cs : RStr) : Option Nat :=
  if cs ≠ [] ∧ cs.all Char.isDigit then
    some (cs.foldl (fun acc c => acc * 10 + (c.toNat - '0'.toNat)) 0)
  else none

/-- Hex digit value of a character, if it is one. -/
def hexVal (c : Char) : Option Nat :=
  if '0' ≤ c ∧ c ≤ '9' then some (c.toNat - '0'.toNat)
  else if 'a' ≤ c ∧ c ≤ 'f' then some (c.toNat - 'a'.toNat + 10)
  else if 'A' ≤ c ∧ c ≤ 'F' then some (c.toNat - 'A'.toNat + 10)
  else none

/-- Parse a nonempty all-hex-digit string. -/
def parseNatHex (cs : RStr) : Option Nat :=
  if cs = [] then none
  else
    cs.foldl (fun acc c =>
      match acc, hexVal c with
      | some a, some v => some (a * 16 + v)
      | _, _ => none) (some 0)

/-- Characters an IPv4 CIDR literal may consist of. -/
def ipv4Char (c : Char) : Bool := c.isDigit || c = '.' || c = '/'

/-- Parse the dotted-quad address part of an IPv4 CIDR literal. -/
def ipv4ParseAddr (addr : RStr) (plen : Nat) : Option IpNetwork :=
  match (splitOnChar '.' addr).mapM parseNatDec with
  | some [a, b, c, d] =>
    if a ≤ 255 ∧ b ≤ 255 ∧ c ≤ 255 ∧ d ≤ 255 then
      some (.v4 a b c d plen)
    else none
  | _ => none

/-- Model of IPv4 CIDR parsing from the `ipnetwork` crate: dotted quad with
octets `≤ 255`, optional `/prefix` with prefix `≤ 32` (default 32).  The
leading character-class guard is implied by the structural checks and is
stated explicitly. -/
def ipv4Parse (cs : RStr) : Option IpNetwork :=
  if cs.all ipv4Char then
    match splitOnChar '/' cs with
    | [addr] => ipv4ParseAddr addr 32
    | [addr, p] =>
      match parseNatDec p with
      | some plen => if plen ≤ 32 then ipv4ParseAddr addr plen else none
      | none => none
    | _ => none
  else none

/-- Parse the 8-hex-group address part of an IPv6 CIDR literal. -/
def ipv6ParseAddr (addr : RStr) (plen : Nat) : Option IpNetwork :=
  match (splitOnChar ':' addr).mapM parseNatHex with
  | some [g1, g2, g3, g4, g5, g6, g7, g8] =>
    if [g1, g2, g3, g4, g5, g6, g7, g8].all (· ≤ 0xFFFF) then
      some (.v6 g1 g2 g3 g4 g5 g6 g7 g8 plen)
    else none
  | _ => none

/-- Model of IPv6 CIDR parsing from the `ipnetwork` crate, for the full
(uncompressed) 8-group form: hex groups `≤ 0xFFFF` separated by `:`,
optional `/prefix` with prefix `≤ 128` (default 128). -/
def ipv6Parse (cs : RStr) : Option IpNetwork :=
  match splitOnChar '/' cs with
  | [addr] => ipv6ParseAddr addr 128
  | [addr, p] =>
    match parseNatDec p with
    | some plen => if plen ≤ 128 then ipv6ParseAddr addr plen else none
    | none => none
  | _ => none

/-- Model of `ipnetwork::IpNetwork::from_str`: tries the IPv4 form, then
the IPv6 form; on failure the error carries a diagnostic string. -/
def ipnetworkParse (cs : RStr) : Except RStr IpNetwork :=
  match ipv4Parse cs with
  | some n => .ok n
  | none =>
    match ipv6Parse cs with
    | some n => .ok n
    | none => .error (str "invalid address: " ++ cs)

/-- Render a hex group without leading zeros (lowercase). -/
def hexChars (n : Nat) : RStr :=
  (Nat.toDigits 16 n)

/-- Model of `IpNetwork`'s `Display`: `a.b.c.d/plen` for IPv4; for IPv6 the
8 hex groups joined by `:` then `/plen` (the model does not reproduce the
`::` compression of the Rust display, which no claim depends on). -/
def ipNetworkToString : IpNetwork → RStr
  | .v4 a b c d plen =>
    natDecChars a ++ ['.'] ++ natDecChars b ++ ['.'] ++ natDecChars c ++ ['.'] ++
      natDecChars d ++ ['/'] ++ natDecChars plen
  | .v6 g1 g2 g3 g4 g5 g6 g7 g8 plen =>
    hexChars g1 ++ [':'] ++ hexChars g2 ++ [':'] ++ hexChars g3 ++ [':'] ++
      hexChars g4 ++ [':'] ++ hexChars g5 ++ [':'] ++ hexChars g6 ++ [':'] ++
      hexChars g7 ++ [':'] ++ hexChars g8 ++ ['/'] ++ natDecChars plen

/-! ## Mechanism (from `src/mechanism/mechanism.rs`) -/

/-- `MechanismError` from `src/mechanism/mechanism.rs`; each variant
carries the offending substring / diagnostic. -/
inductive MechanismError
  | NotValidMechanismFormat (s : RStr)
  | NotIP4Network (s : RStr)
  | NotIP6Network (s : RStr)
  | NotValidIPNetwork (s : RStr)
deriving DecidableEq

/-- `Mechanism<T>` from `src/mechanism/mechanism.rs`: kind, qualifier and
optional payload (`rrdata`). -/
structure Mechanism (T : Type) where
  kind : Kind
  qualifier : Qualifier
  rrdata : Option T
deriving DecidableEq

abbrev MechanismStr := Mechanism RStr
abbrev MechanismIp := Mechanism IpNetwork

/-- `Mechanism::new` — unconditional constructor. -/
def Mechanism.new (kind : Kind) (qualifier : Qualifier) (mechanism : Option T) :
    Mechanism T :=
  ⟨kind, qualifier, mechanism⟩

/-- `Mechanism::new_redirect`. -/
def Mechanism.new_redirect (q : Qualifier) (m : RStr) : MechanismStr :=
  Mechanism.new Kind.Redirect q (some m)

/-- `Mechanism::new_a_without_mechanism`. -/
def Mechanism.new_a_without_mechanism (q : Qualifier) : MechanismStr :=
  Mechanism.new Kind.A q none

/-- `Mechanism::new_mx_without_mechanism`. -/
def Mechanism.new_mx_without_mechanism (q : Qualifier) : MechanismStr :=
  Mechanism.new Kind.MX q none

/-- `Mechanism::new_include`. -/
def Mechanism.new_include (q : Qualifier) (m : RStr) : MechanismStr :=
  Mechanism.new Kind.Include q (some m)

/-- `Mechanism::new_ptr_without_mechanism`. -/
def Mechanism.new_ptr_without_mechanism (q : Qualifier) : MechanismStr :=
  Mechanism.new Kind.Ptr q none

/-- `Mechanism::new_exists`. -/
def Mechanism.new_exists (q : Qualifier) (m : RStr) : MechanismStr :=
  Mechanism.new Kind.Exists q (some m)

/-- `Mechanism::new_all`. -/
def Mechanism.new_all (q : Qualifier) : MechanismStr :=
  Mechanism.new Kind.All q none

/-- `Mechanism::<IpNetwork>::new_ip4`. -/
def Mechanism.new_ip4 (q : Qualifier) (m : IpNetwork) : MechanismIp :=
  Mechanism.new Kind.IpV4 q (some m)

/-- `Mechanism::<IpNetwork>::new_ip6`. -/
def Mechanism.new_ip6 (q : Qualifier) (m : IpNetwork) : MechanismIp :=
  Mechanism.new Kind.IpV6 q (some m)

/-- `Mechanism::<IpNetwork>::new_ip` — selects the kind from the network's
address family. -/
def Mechanism.new_ip (q : Qualifier) (m : IpNetwork) : MechanismIp :=
  if m.is_ipv4 then Mechanism.new_ip4 q m else Mechanism.new_ip6 q m

/-- `Mechanism::<String>::build_string` from `src/mechanism/mechanism.rs`:
qualifier prefix (elided for Pass), kind prefix, a `:` separator for
A/MX payloads not beginning with `/` and for nonempty Ptr payloads, then
the payload text. -/
def MechanismStr.build_string (m : MechanismStr) : RStr :=
  let qualPart : RStr := if m.qualifier ≠ Qualifier.Pass then m.qualifier.as_str else []
  let tmp : RStr := m.rrdata.getD []
  let sep : RStr :=
    match m.kind with
    | Kind.A | Kind.MX => if ¬lcStartsWith (str "/") tmp ∧ tmp ≠ [] then [':'] else []
    | Kind.Ptr => if tmp ≠ [] then [':'] else []
    | _ => []
  qualPart ++ m.kind.as_str ++ sep ++ tmp

/-- `Mechanism::<IpNetwork>::build_string` from
`src/mechanism/mechanism.rs`: qualifier prefix, kind prefix, the network's
display text.  The source unwraps `rrdata`; `none` models that panic. -/
def MechanismIp.build_string (m : MechanismIp) : Option RStr :=
  match m.rrdata with
  | none => none
  | some n =>
    some ((if m.qualifier ≠ Qualifier.Pass then m.qualifier.as_str else []) ++
      m.kind.as_str ++ ipNetworkToString n)

/-! ## Helpers from the missing `helpers.rs` -/

/-- Modelled from the spec: `helpers::return_and_remove_qualifier` —
if the token's first character is one of `+ - ~ ?` it is decoded as the
qualifier and removed; otherwise the qualifier defaults to Pass and the
token is unchanged. -/
def returnAndRemoveQualifier (s : RStr) : Qualifier × RStr :=
  match s with
  | [] => (Qualifier.Pass, [])
  | c :: rest =>
    if c = '+' then (Qualifier.Pass, rest)
    else if c = '-' then (Qualifier.Fail, rest)
    else if c = '~' then (Qualifier.SoftFail, rest)
    else if c = '?' then (Qualifier.Neutral, rest)
    else (Qualifier.Pass, s)

/-- The keyword the A/MX/Ptr token shapes are matched against. -/
def kindKeyword : Kind → RStr
  | Kind.A => str "a"
  | Kind.MX => str "mx"
  | Kind.Ptr => str "ptr"
  | k => k.as_str

/-- Modelled from the spec: `helpers::capture_matches` — matches a token
against the A / MX / Ptr shape (optional leading qualifier, the keyword,
then optionally `:domain` — or `/prefixlen` for A and MX — kept verbatim,
separator included, as the payload; grounded by the assertions in
`src/spf/tests/spf/mx.rs`).  The whole token must match. -/
def captureMatches (s : RStr) (k : Kind) : Option MechanismStr :=
  let (q, rest) := returnAndRemoveQualifier s
  let kw := kindKeyword k
  if rest = kw then some (Mechanism.new k q none)
  else
    match stripPfx kw rest with
    | some (c :: tail) =>
      if (c = ':' ∨ (c = '/' ∧ (k = Kind.A ∨ k = Kind.MX))) ∧ tail ≠ [] then
        some (Mechanism.new k q (some (c :: tail)))
      else none
    | _ => none

/-- Modelled from the spec: `helpers::spf_check_whitespace` — `true` when
the string contains two or more consecutive whitespace characters. -/
def spfCheckWhitespace : RStr → Bool
  | a :: b :: rest => (a.isWhitespace && b.isWhitespace) || spfCheckWhitespace (b :: rest)
  | _ => false

/-- Modelled from the spec: `helpers::build_spf_str` — renders a group by
joining its members' canonical text with a single leading space per
member. -/
def buildSpfStrPart (l : List MechanismStr) : RStr :=
  (l.map (fun m => ' ' :: m.build_string)).flatten

/-- Modelled from the spec: `helpers::build_spf_str_from_ip` — the same
joining for IP-network groups; a member whose payload is absent panics in
the source (its `build_string` unwraps), modelled by `none`. -/
def buildSpfStrIpPart (l : List MechanismIp) : Option RStr :=
  match l with
  | [] => some []
  | m :: rest =>
    match m.build_string, buildSpfStrIpPart rest with
    | some s, some r => some ((' ' :: s) ++ r)
    | _, _ => none

/-! ## `Mechanism` text constructors (from `src/mechanism/mechanism.rs`) -/

/-- `Mechanism::<String>::from_str`: a token containing `redirect=` yields
a Redirect mechanism with the hardcoded Pass qualifier and the piece after
the rightmost `=` as payload; a token containing `include:` yields an
Include mechanism with stripped qualifier and the piece after the
rightmost `:`; anything else is a format error. -/
def MechanismStr.from_str (s : RStr) : Except MechanismError MechanismStr :=
  if lcContains (str "redirect=") s then
    .ok (Mechanism.new Kind.Redirect Qualifier.Pass (some (afterLast '=' s)))
  else if lcContains (str "include:") s then
    .ok (Mechanism.new_include (returnAndRemoveQualifier s).1 (afterLast ':' s))
  else
    .error (MechanismError.NotValidMechanismFormat s)

/-- Result of `Mechanism::<IpNetwork>::from_str`, with an explicit outcome
for the `raw_ip.unwrap()` panic. -/
inductive MechIpResult
  | ok (m : MechanismIp)
  | err (e : MechanismError)
  | panics
deriving DecidableEq

/-- The second stage of `Mechanism::<IpNetwork>::from_str`: unwrap the
prefix-stripped remainder (panicking when the prefix was absent), parse it
as a network and check the address family against the kind. -/
def MechanismIp.from_str_stage2 (s : RStr) (q : Qualifier) (kind : Kind)
    (rawIp : Option RStr) : MechIpResult :=
  match rawIp with
  | none => .panics
  | some raw =>
    match ipnetworkParse raw with
    | .ok ip =>
      if ip.is_ipv4 && kind.is_ip_v4 then .ok (Mechanism.new_ip4 q ip)
      else if ip.is_ipv4 && !kind.is_ip_v4 then
        .err (MechanismError.NotIP6Network (ipNetworkToString ip))
      else if ip.is_ipv6 && kind.is_ip_v6 then .ok (Mechanism.new_ip6 q ip)
      else if ip.is_ipv6 && !kind.is_ip_v6 then
        .err (MechanismError.NotIP4Network (ipNetworkToString ip))
      else .err (MechanismError.NotValidMechanismFormat s)
    | .error e => .err (MechanismError.NotValidIPNetwork e)

/-- `Mechanism::<IpNetwork>::from_str` from `src/mechanism/mechanism.rs`:
strips the qualifier, selects the kind from a `contains "ip4"` /
`contains "ip6"` test, strips the `ip4:`/`ip6:` prefix, then parses and
family-checks the remainder (`MechanismIp.from_str_stage2`). -/
def MechanismIp.from_str (s : RStr) : MechIpResult :=
  if lcContains (str "ip4:") s || lcContains (str "ip6:") s then
    if lcContains (str "ip4") (returnAndRemoveQualifier s).2 then
      MechanismIp.from_str_stage2 s (returnAndRemoveQualifier s).1 Kind.IpV4
        (stripPfx (str "ip4:") (returnAndRemoveQualifier s).2)
    else if lcContains (str "ip6") (returnAndRemoveQualifier s).2 then
      MechanismIp.from_str_stage2 s (returnAndRemoveQualifier s).1 Kind.IpV6
        (stripPfx (str "ip6:") (returnAndRemoveQualifier s).2)
    else
      MechanismIp.from_str_stage2 s (returnAndRemoveQualifier s).1 Kind.IpV4 none
  else .err (MechanismError.NotValidMechanismFormat s)

/-! ## Spf record (from `src/spf/mod.rs`) -/

/-- `SpfError` from `src/spf/errors.rs` (file not among the provided
sources; variants modelled from their uses in `src/spf/mod.rs` and the
spec's error taxonomy). -/
inductive SpfError
  | InvalidSource
  | SourceLengthExceeded
  | WhiteSpaceSyntaxError
  | InvalidIPAddr (diag : RStr)
  | HasNotBeenParsed
  | RedirectWithAllMechanism
  | LookupLimitExceeded
deriving DecidableEq

/-- `MAX_SPF_STRING_LENGTH` from `src/spf/mod.rs`. -/
def MAX_SPF_STRING_LENGTH : Nat := 255

/-- The `Spf` struct from `src/spf/mod.rs`.  The Rust fields `include` and
`exists` are renamed `incl` and `existsMech` (Lean keywords). -/
structure Spf where
  source : RStr
  version : RStr
  from_src : Bool
  redirect : Option MechanismStr
  is_redirected : Bool
  a : Option (List MechanismStr)
  mx : Option (List MechanismStr)
  incl : Option (List MechanismStr)
  ip4 : Option (List MechanismIp)
  ip6 : Option (List MechanismIp)
  ptr : Option MechanismStr
  existsMech : Option (List MechanismStr)
  all : Option MechanismStr
  was_parsed : Bool
  was_validated : Bool
  is_valid : Bool
  warnings : Option (List RStr)
deriving DecidableEq

/-- `Spf::default` — every field unset. -/
def Spf.default : Spf :=
  { source := [], version := [], from_src := false, redirect := none,
    is_redirected := false, a := none, mx := none, incl := none,
    ip4 := none, ip6 := none, ptr := none, existsMech := none, all := none,
    was_parsed := false, was_validated := false, is_valid := false,
    warnings := none }

/-- `Spf::new` — same as `Spf::default`. -/
def Spf.new : Spf := Spf.default

/-! ### The parse pipeline (`Spf::from_str`) -/

/-- Outcome of `Spf::from_str`, with an explicit outcome for the
`.unwrap()` panic in the `all` branch. -/
inductive ParseResult
  | ok (spf : Spf)
  | err (e : SpfError)
  | panics
deriving DecidableEq

/-- The accumulating `vec_of_*` variables of `Spf::from_str`. -/
structure ParseVecs where
  incs : List MechanismStr
  ip4s : List MechanismIp
  ip6s : List MechanismIp
  aV : List MechanismStr
  mxV : List MechanismStr
  exV : List MechanismStr
deriving DecidableEq

/-- Initial (empty) accumulators. -/
def ParseVecs.empty : ParseVecs := ⟨[], [], [], [], [], []⟩

/-- State carried through the token loop of `Spf::from_str`. -/
structure PState where
  spf : Spf
  vecs : ParseVecs
deriving DecidableEq

/-- Result of classifying one token in the loop of `Spf::from_str`. -/
inductive StepRes
  | cont (st : PState)
  | fatal (e : SpfError)
  | panicked
deriving DecidableEq

/-- One iteration of the token loop of `Spf::from_str`: the fixed-priority
classification chain (version marker, `redirect=`, `include:`, `exists:`,
`ip4:`, `ip6:`, `all` suffix, A shape, MX shape, Ptr shape, silently
dropped). -/
def classifyToken (record : RStr) (st : PState) : StepRes :=
  if lcContains (str "v=spf1") record || lcStartsWith (str "spf2.0") record then
    .cont { st with spf := { st.spf with version := record } }
  else if lcContains (str "redirect=") record then
    match MechanismStr.from_str record with
    | .ok redirect =>
      .cont { st with spf := { st.spf with redirect := some redirect, is_redirected := true } }
    | .error _ => .cont st
  else if lcContains (str "include:") record then
    match MechanismStr.from_str record with
    | .ok inc => .cont { st with vecs := { st.vecs with incs := st.vecs.incs ++ [inc] } }
    | .error _ => .cont st
  else if lcContains (str "exists:") record then
    match MechanismStr.from_str record with
    | .ok ex => .cont { st with vecs := { st.vecs with exV := st.vecs.exV ++ [ex] } }
    | .error _ => .cont st
  else if lcContains (str "ip4:") record then
    match stripPfx (str "ip4:") (returnAndRemoveQualifier record).2 with
    | some rawIp4 =>
      match ipnetworkParse rawIp4 with
      | .ok ip4 =>
        .cont { st with vecs :=
          { st.vecs with ip4s :=
              st.vecs.ip4s ++ [Mechanism.new_ip4 (returnAndRemoveQualifier record).1 ip4] } }
      | .error e => .fatal (SpfError.InvalidIPAddr e)
    | none => .cont st
  else if lcContains (str "ip6:") record then
    match stripPfx (str "ip6:") (returnAndRemoveQualifier record).2 with
    | some rawIp6 =>
      match ipnetworkParse rawIp6 with
      | .ok ip6 =>
        .cont { st with vecs :=
          { st.vecs with ip6s :=
              st.vecs.ip6s ++ [Mechanism.new_ip6 (returnAndRemoveQualifier record).1 ip6] } }
      | .error e => .fatal (SpfError.InvalidIPAddr e)
    | none => .cont st
  else if lcEndsWith (str "all") record then
    match MechanismStr.from_str record with
    | .ok m => .cont { st with spf := { st.spf with all := some m } }
    | .error _ => .panicked
  else
    match captureMatches record Kind.A with
    | some aMech => .cont { st with vecs := { st.vecs with aV := st.vecs.aV ++ [aMech] } }
    | none =>
      match captureMatches record Kind.MX with
      | some mxMech => .cont { st with vecs := { st.vecs with mxV := st.vecs.mxV ++ [mxMech] } }
      | none =>
        match captureMatches record Kind.Ptr with
        | some ptrMech => .cont { st with spf := { st.spf with ptr := some ptrMech } }
        | none => .cont st

/-- The post-loop installation of the nonempty accumulators and status
flags in `Spf::from_str`. -/
def finalizeParse (st : PState) : Spf :=
  let s1 := st.spf
  let s2 := if st.vecs.incs ≠ [] then { s1 with incl := some st.vecs.incs } else s1
  let s3 := if st.vecs.ip4s ≠ [] then { s2 with ip4 := some st.vecs.ip4s } else s2
  let s4 := if st.vecs.ip6s ≠ [] then { s3 with ip6 := some st.vecs.ip6s } else s3
  let s5 := if st.vecs.aV ≠ [] then { s4 with a := some st.vecs.aV } else s4
  let s6 := if st.vecs.mxV ≠ [] then { s5 with mx := some st.vecs.mxV } else s5
  let s7 := if st.vecs.exV ≠ [] then { s6 with existsMech := some st.vecs.exV } else s6
  { s7 with was_parsed := true, is_valid := true }

/-- The token loop of `Spf::from_str`. -/
def processTokens : List RStr → PState → ParseResult
  | [], st => .ok (finalizeParse st)
  | t :: ts, st =>
    match classifyToken t st with
    | .cont st' => processTokens ts st'
    | .fatal e => .err e
    | .panicked => .panics

/-- `Spf::from_str` from `src/spf/mod.rs`: the three pre-tokenize checks
(source prefix, length ceiling, consecutive whitespace), then the token
loop, then the source string is retained. -/
def Spf.from_str (s : RStr) : ParseResult :=
  if ¬(lcStartsWith (str "v=spf1") s) ∧ ¬(lcStartsWith (str "spf2.0") s) then
    .err SpfError.InvalidSource
  else if s.length > MAX_SPF_STRING_LENGTH then
    .err SpfError.SourceLengthExceeded
  else if spfCheckWhitespace s then
    .err SpfError.WhiteSpaceSyntaxError
  else
    match processTokens (splitWs s) { spf := Spf.new, vecs := ParseVecs.empty } with
    | .ok spf => .ok { spf with source := s }
    | .err e => .err e
    | .panics => .panics

/-! ### The append / clear API (from `src/spf/mod.rs`) -/

/-- `Spf::append_mechanism_of_redirect`: installs the redirect, raises the
flag and clears any pending `all`. -/
def Spf.append_mechanism_of_redirect (r : Spf) (m : MechanismStr) : Spf :=
  let r1 := { r with redirect := some m, is_redirected := true }
  if r1.all.isSome then { r1 with all := none } else r1

/-- `Spf::append_mechanism_of_a`. -/
def Spf.append_mechanism_of_a (r : Spf) (m : MechanismStr) : Spf :=
  match r.a with
  | some l => { r with a := some (l ++ [m]) }
  | none => { r with a := some [m] }

/-- `Spf::append_mechanism_of_mx`. -/
def Spf.append_mechanism_of_mx (r : Spf) (m : MechanismStr) : Spf :=
  match r.mx with
  | some l => { r with mx := some (l ++ [m]) }
  | none => { r with mx := some [m] }

/-- `Spf::append_mechanism_of_include`. -/
def Spf.append_mechanism_of_include (r : Spf) (m : MechanismStr) : Spf :=
  match r.incl with
  | some l => { r with incl := some (l ++ [m]) }
  | none => { r with incl := some [m] }

/-- `Spf::append_mechanism_of_ip4`. -/
def Spf.append_mechanism_of_ip4 (r : Spf) (m : MechanismIp) : Spf :=
  match r.ip4 with
  | some l => { r with ip4 := some (l ++ [m]) }
  | none => { r with ip4 := some [m] }

/-- `Spf::append_mechanism_of_ip6`. -/
def Spf.append_mechanism_of_ip6 (r : Spf) (m : MechanismIp) : Spf :=
  match r.ip6 with
  | some l => { r with ip6 := some (l ++ [m]) }
  | none => { r with ip6 := some [m] }

/-- `Spf::append_mechanism_of_exists`. -/
def Spf.append_mechanism_of_exists (r : Spf) (m : MechanismStr) : Spf :=
  match r.existsMech with
  | some l => { r with existsMech := some (l ++ [m]) }
  | none => { r with existsMech := some [m] }

/-- `Spf::append_mechanism_of_ptr`. -/
def Spf.append_mechanism_of_ptr (r : Spf) (m : MechanismStr) : Spf :=
  { r with ptr := some m }

/-- `Spf::append_mechanism_of_all`: installs the `all` mechanism only when
no redirect is present (Redirect wins silently). -/
def Spf.append_mechanism_of_all (r : Spf) (m : MechanismStr) : Spf :=
  if r.redirect.isNone then { r with all := some m } else r

/-- `Spf::clear_mechanism`. -/
def Spf.clear_mechanism (r : Spf) (k : Kind) : Spf :=
  match k with
  | Kind.Redirect => { r with redirect := none, is_redirected := false }
  | Kind.A => { r with a := none }
  | Kind.MX => { r with mx := none }
  | Kind.Include => { r with incl := none }
  | Kind.IpV4 => { r with ip4 := none }
  | Kind.IpV6 => { r with ip6 := none }
  | Kind.Exists => { r with existsMech := none }
  | Kind.Ptr => { r with ptr := none }
  | Kind.All => { r with all := none }

/-- `Spf::append_mechanism` — dispatch on the mechanism's kind; IP kinds
fall into the silent catch-all. -/
def Spf.append_mechanism (r : Spf) (m : MechanismStr) : Spf :=
  match m.kind with
  | Kind.Redirect => r.append_mechanism_of_redirect m
  | Kind.A => r.append_mechanism_of_a m
  | Kind.MX => r.append_mechanism_of_mx m
  | Kind.Include => r.append_mechanism_of_include m
  | Kind.Exists => r.append_mechanism_of_exists m
  | Kind.Ptr => r.append_mechanism_of_ptr m
  | Kind.All => r.append_mechanism_of_all m
  | _ => r

/-- `Spf::append_ip_mechanism` — dispatch on the mechanism's kind; any
kind other than IpV4/IpV6 hits `unreachable!`, modelled by `none`. -/
def Spf.append_ip_mechanism (r : Spf) (m : MechanismIp) : Option Spf :=
  match m.kind with
  | Kind.IpV4 => some (r.append_mechanism_of_ip4 m)
  | Kind.IpV6 => some (r.append_mechanism_of_ip6 m)
  | _ => none

/-! ### The builder (`Spf::build_spf_string`) -/

/-- `Spf::build_spf_string` from `src/spf/mod.rs`: version, then the
A/MX/Include/IpV4/IpV6/Exists groups, then Ptr, then Redirect when the
record is redirected, else All when present.  `none` models the panics of
the source (`redirect.unwrap()` when `is_redirected` holds with no
redirect stored, and the payload unwrap inside IP-group rendering). -/
def Spf.build_spf_string (r : Spf) : Option RStr :=
  let base := r.version
  let base := match r.a with
    | some l => base ++ buildSpfStrPart l
    | none => base
  let base := match r.mx with
    | some l => base ++ buildSpfStrPart l
    | none => base
  let base := match r.incl with
    | some l => base ++ buildSpfStrPart l
    | none => base
  let ipPart : Option RStr := match r.ip4 with
    | some l => buildSpfStrIpPart l
    | none => some []
  match ipPart with
  | none => none
  | some p4 =>
    let ip6Part : Option RStr := match r.ip6 with
      | some l => buildSpfStrIpPart l
      | none => some []
    match ip6Part with
    | none => none
    | some p6 =>
      let base := base ++ p4 ++ p6
      let base := match r.existsMech with
        | some l => base ++ buildSpfStrPart l
        | none => base
      let base := match r.ptr with
        | some p => base ++ (' ' :: p.build_string)
        | none => base
      if r.is_redirected then
        match r.redirect with
        | none => none
        | some redir => some (base ++ (' ' :: redir.build_string))
      else
        match r.all with
        | some allM => some (base ++ (' ' :: allM.build_string))
        | none => some base

/-! ### The validator (`Spf::try_validate`) -/

/-- Modelled from the spec: `validate::check_lookup_count` — the DNS
lookup cost of a record: the count of A, MX, Include, Redirect and Exists
mechanisms. -/
def checkLookupCount (r : Spf) : Nat :=
  (r.a.getD []).length + (r.mx.getD []).length + (r.incl.getD []).length +
    (if r.redirect.isSome then 1 else 0) + (r.existsMech.getD []).length

/-- `Spf::try_validate` from `src/spf/mod.rs`: when the record came from a
source string, checks the stored source length and the was-parsed flag;
then rejects redirect-with-all and a lookup count above 10; on success the
record is marked valid.  (The `from_src` flag is never set by any code in
`src/spf/mod.rs`, so the first two checks are unreachable.) -/
def Spf.try_validate (r : Spf) : Except SpfError Spf :=
  if r.from_src ∧ r.source.length > MAX_SPF_STRING_LENGTH then
    .error SpfError.SourceLengthExceeded
  else if r.from_src ∧ ¬r.was_parsed then
    .error SpfError.HasNotBeenParsed
  else if r.redirect.isSome ∧ r.all.isSome then
    .error SpfError.RedirectWithAllMechanism
  else if checkLookupCount r > 10 then
    .error SpfError.LookupLimitExceeded
  else
    .ok { r with is_valid := true }

/-! ### Version setters (from `src/spf/mod.rs`) -/

/-- `Spf::set_v1`. -/
def Spf.set_v1 (r : Spf) : Spf := { r with version := str "v=spf1" }

/-- `Spf::set_v2_pra`. -/
def Spf.set_v2_pra (r : Spf) : Spf := { r with version := str "spf2.0/pra" }

/-- `Spf::set_v2_mfrom`. -/
def Spf.set_v2_mfrom (r : Spf) : Spf := { r with version := str "spf2.0/mfrom" }

/-- `Spf::set_v2_pra_mfrom`. -/
def Spf.set_v2_pra_mfrom (r : Spf) : Spf := { r with version := str "spf2.0/pra,mfrom" }

/-- `Spf::set_v2_mfrom_pra`. -/
def Spf.set_v2_mfrom_pra (r : Spf) : Spf := { r with version := str "spf2.0/mfrom,pra" }

/-! ### Specification-side canonical rendering (for the builder claim) -/

/-- Total canonical text of an IP-network mechanism (payload defaulted
when absent), used by the specification-side rendering. -/
def mechanismIpText (m : MechanismIp) : RStr :=
  (if m.qualifier ≠ Qualifier.Pass then m.qualifier.as_str else []) ++
    m.kind.as_str ++ ipNetworkToString (m.rrdata.getD (IpNetwork.v4 0 0 0 0 0))

/-- Canonical text of an IP-network group: members joined with a single
leading space each. -/
def canonicalIpPart (l : List MechanismIp) : RStr :=
  (l.map (fun m => ' ' :: mechanismIpText m)).flatten

/-- Modelled from the spec (§4.4), as the specification-side reference for
the builder: version, then the A, MX, Include, IpV4, IpV6 and Exists
groups in that fixed order, then Ptr if present, then Redirect if the
record is redirected, else All if present and not redirected; each group
member carries a single leading space. -/
def canonicalSpfString (r : Spf) : RStr :=
  r.version ++
    buildSpfStrPart (r.a.getD []) ++
    buildSpfStrPart (r.mx.getD []) ++
    buildSpfStrPart (r.incl.getD []) ++
    canonicalIpPart (r.ip4.getD []) ++
    canonicalIpPart (r.ip6.getD []) ++
    buildSpfStrPart (r.existsMech.getD []) ++
    (match r.ptr with
     | some p => ' ' :: p.build_string
     | none => []) ++
    (if r.is_redirected then
      match r.redirect with
      | some m => ' ' :: m.build_string
      | none => []
    else
      match r.all with
      | some m => ' ' :: m.build_string
      | none => [])

/-! ### Sequences of programmatic construction operations -/

/-- One operation of the programmatic construction API of `Spf`. -/
inductive SpfOp
  | app (m : MechanismStr)
  | appIp (m : MechanismIp)
  | clear (k : Kind)
deriving DecidableEq

/-- Apply one construction operation; `none` models the
`append_ip_mechanism` panic on non-IP kinds. -/
def applySpfOp (r : Spf) : SpfOp → Option Spf
  | .app m => some (r.append_mechanism m)
  | .appIp m => r.append_ip_mechanism m
  | .clear k => some (r.clear_mechanism k)

/-- Run a sequence of construction operations. -/
def runSpfOps : List SpfOp → Spf → Option Spf
  | [], r => some r
  | op :: ops, r =>
    match applySpfOp r op with
    | some r' => runSpfOps ops r'
    | none => none

/-! ### Version-marker bookkeeping (for the duplicate-marker claim) -/

/-- A token the parse loop treats as a version marker: it contains the
`v=spf1` literal or starts with `spf2.0`. -/
def isVersionMarker (t : RStr) : Bool :=
  lcContains (str "v=spf1") t || lcStartsWith (str "spf2.0") t

/-- The last version-marker token of a token list, with a default for
marker-free lists. -/
def lastMarkerFrom (d : RStr) (ts : List RStr) : RStr :=
  ts.foldl (fun acc t => if isVersionMarker t then t else acc) d

/-! ### A concrete over-length parsed record (for the validator claim) -/

/-- An already-parsed record (`v=spf1`) with twenty `ip4:1.2.3.4/24`
mechanisms appended afterwards, so its serialized form exceeds
`MAX_SPF_STRING_LENGTH`. -/
def overlongParsedRecord : Spf :=
  match Spf.from_str (str "v=spf1") with
  | .ok r =>
    (List.range 20).foldl
      (fun acc _ =>
        acc.append_mechanism_of_ip4 (Mechanism.new_ip4 Qualifier.Pass (.v4 1 2 3 4 24))) r
  | _ => Spf.default

/-- A concrete record built by appending out of canonical order
(All, then MX, then A, then Ptr after setting the version). -/
def outOfOrderRecord : Spf :=
  ((((Spf.new.set_v1).append_mechanism (Mechanism.new_all Qualifier.SoftFail)).append_mechanism
      (Mechanism.new_mx_without_mechanism Qualifier.Pass)).append_mechanism
    (Mechanism.new_a_without_mechanism Qualifier.Neutral)).append_mechanism
    (Mechanism.new_ptr_without_mechanism Qualifier.Pass)

/-- Extract the record of a successful parse (defaulted otherwise). -/
def parseOk : ParseResult → Spf
  | .ok r => r
  | _ => Spf.default

/-- The record parsed from a line with two extra version-marker tokens. -/
def dupMarkerRecord : Spf :=
  parseOk (Spf.from_str (str "v=spf1 spf2.0/pra spf2.0/mfrom"))

/-- A record holding a redirect, built through the append API. -/
def redirectedRecord : Spf :=
  Spf.new.append_mechanism (Mechanism.new_redirect Qualifier.Pass (str "ex.com"))

/-- A demonstration sequence of append operations. -/
def appendDemoOps : List SpfOp :=
  [SpfOp.app (Mechanism.new_all Qualifier.Pass),
   SpfOp.app (Mechanism.new_redirect Qualifier.Pass (str "ex.com")),
   SpfOp.app (Mechanism.new_all Qualifier.Fail),
   SpfOp.appIp (Mechanism.new_ip4 Qualifier.Pass (IpNetwork.v4 1 2 3 4 24))]

/-- The record the demonstration sequence produces. -/
def appendDemoRecord : Spf := (runSpfOps appendDemoOps Spf.new).getD Spf.default

/-! ## Helper lemmas -/

theorem isPrefixOf_append_self (p s : RStr) : List.isPrefixOf p (p ++ s) = true := by
  rw [List.isPrefixOf_iff_prefix]
  exact List.prefix_append p s

theorem lcStartsWith_append_self (p s : RStr) : lcStartsWith p (p ++ s) = true :=
  isPrefixOf_append_self p s

theorem lcContains_of_isPrefixOf {p s : RStr} (h : List.isPrefixOf p s = true) :
    lcContains p s = true := by
  cases s with
  | nil =>
    cases p with
    | nil => rfl
    | cons c cs => simp [List.isPrefixOf] at h
  | cons c rest => simp [lcContains, h]

theorem lcContains_append_self (p s : RStr) : lcContains p (p ++ s) = true :=
  lcContains_of_isPrefixOf (isPrefixOf_append_self p s)

theorem lcContains_cons_of {p s : RStr} (c : Char) (h : lcContains p s = true) :
    lcContains p (c :: s) = true := by
  simp [lcContains, h]

theorem stripPfx_append_self (p s : RStr) : stripPfx p (p ++ s) = some s := by
  induction p with
  | nil => rfl
  | cons c cs ih => simp [stripPfx, ih]

theorem lcContains_eq_false_of_head_not_mem {c0 : Char} {p s : RStr} (h : c0 ∉ s) :
    lcContains (c0 :: p) s = false := by
  induction s with
  | nil => rfl
  | cons c rest ih =>
    have hc : c0 ≠ c := fun he => h (he ▸ List.mem_cons_self c rest)
    have hrest : c0 ∉ rest := fun hm => h (List.mem_cons_of_mem c hm)
    simp [lcContains, List.isPrefixOf, ih hrest, hc]

theorem ipv6ParseAddr_is_ipv6 {addr : RStr} {plen : Nat} {n : IpNetwork}
    (h : ipv6ParseAddr addr plen = some n) : n.is_ipv6 = true := by
  unfold ipv6ParseAddr at h
  split at h
  · split at h
    · cases h; rfl
    · exact absurd h (by simp)
  · exact absurd h (by simp)

theorem ipv6Parse_is_ipv6 {s : RStr} {n : IpNetwork} (h : ipv6Parse s = some n) :
    n.is_ipv6 = true := by
  unfold ipv6Parse at h
  split at h
  · exact ipv6ParseAddr_is_ipv6 h
  · split at h
    · split at h
      · exact ipv6ParseAddr_is_ipv6 h
      · exact absurd h (by simp)
    · exact absurd h (by simp)
  · exact absurd h (by simp)

theorem ipv4Parse_all_ipv4Char {s : RStr} {n : IpNetwork} (h : ipv4Parse s = some n) :
    s.all ipv4Char = true := by
  unfold ipv4Parse at h
  by_cases hc : s.all ipv4Char = true
  · exact hc
  · rw [if_neg (by exact fun hh => hc hh)] at h
    exact absurd h (by simp)

theorem ipv4Parse_no_i {s : RStr} {n : IpNetwork} (h : ipv4Parse s = some n) :
    'i' ∉ s := by
  intro hm
  have hall := ipv4Parse_all_ipv4Char h
  have := List.all_eq_true.mp hall _ hm
  simp [ipv4Char] at this

theorem ipnetworkParse_v4 {s : RStr} {n : IpNetwork} (h : ipnetworkParse s = .ok n)
    (hv4 : n.is_ipv4 = true) : ipv4Parse s = some n := by
  unfold ipnetworkParse at h
  cases h4 : ipv4Parse s with
  | some m => rw [h4] at h; cases h; rfl
  | none =>
    rw [h4] at h
    cases h6 : ipv6Parse s with
    | some m =>
      rw [h6] at h
      cases h
      have := ipv6Parse_is_ipv6 h6
      cases n <;> simp_all [IpNetwork.is_ipv4, IpNetwork.is_ipv6]
    | none => rw [h6] at h; exact absurd h (by simp)

theorem lcContains_ip4_of_no_i {s : RStr} (h : 'i' ∉ s) :
    lcContains (str "ip4") (str "ip6:" ++ s) = false := by
  have h6 : str "ip6:" ++ s = 'i' :: 'p' :: '6' :: ':' :: s := rfl
  rw [h6]
  have htail : lcContains (str "ip4") s = false := by
    have : str "ip4" = 'i' :: str "p4" := rfl
    rw [this]
    exact lcContains_eq_false_of_head_not_mem h
  simp [lcContains, List.isPrefixOf, htail]

theorem finalizeParse_version (st : PState) :
    (finalizeParse st).version = st.spf.version := by
  unfold finalizeParse
  dsimp only
  split <;> split <;> split <;> split <;> split <;> split <;> rfl

theorem classifyToken_version {t : RStr} {st st' : PState}
    (h : classifyToken t st = .cont st') :
    st'.spf.version = if isVersionMarker t then t else st.spf.version := by
  unfold classifyToken at h
  by_cases hv : (lcContains (str "v=spf1") t || lcStartsWith (str "spf2.0") t) = true
  · rw [if_pos hv] at h
    cases h
    simp [isVersionMarker, hv]
  · rw [if_neg hv] at h
    have hgoal : st'.spf.version = st.spf.version := by
      split at h
      · split at h <;> (cases h; rfl)
      · split at h
        · split at h <;> (cases h; rfl)
        · split at h
          · split at h <;> (cases h; rfl)
          · split at h
            · split at h
              · split at h
                · cases h; rfl
                · cases h
              · cases h; rfl
            · split at h
              · split at h
                · split at h
                  · cases h; rfl
                  · cases h
                · cases h; rfl
              · split at h
                · split at h
                  · cases h; rfl
                  · cases h
                · split at h
                  · cases h; rfl
                  · split at h
                    · cases h; rfl
                    · split at h
                      · cases h; rfl
                      · cases h; rfl
    rw [hgoal, if_neg]
    intro hm
    exact hv (by simpa [isVersionMarker] using hm)

theorem processTokens_version :
    ∀ (ts : List RStr) (st : PState) (r : Spf),
      processTokens ts st = .ok r →
      r.version = lastMarkerFrom st.spf.version ts := by
  intro ts
  induction ts with
  | nil =>
    intro st r h
    unfold processTokens at h
    cases h
    exact finalizeParse_version st
  | cons t ts ih =>
    intro st r h
    unfold processTokens at h
    cases hc : classifyToken t st with
    | cont st' =>
      rw [hc] at h
      have hv := classifyToken_version hc
      have := ih st' r h
      rw [this, hv]
      unfold lastMarkerFrom
      rw [List.foldl_cons]
    | fatal e => rw [hc] at h; cases h
    | panicked => rw [hc] at h; cases h

/-- The mutual-exclusion invariant: a record never holds both a redirect
and an `all` mechanism. -/
def RedirectAllExclusive (r : Spf) : Prop :=
  ¬(r.redirect.isSome = true ∧ r.all.isSome = true)

theorem exclusive_of_fields {r r' : Spf} (h : RedirectAllExclusive r)
    (hr : r'.redirect = r.redirect) (ha : r'.all = r.all) :
    RedirectAllExclusive r' := by
  unfold RedirectAllExclusive at h ⊢
  rw [hr, ha]
  exact h

theorem append_mechanism_exclusive {r : Spf} (m : MechanismStr)
    (h : RedirectAllExclusive r) : RedirectAllExclusive (r.append_mechanism m) := by
  rcases m with ⟨k, q, d⟩
  cases k with
  | Redirect =>
    show RedirectAllExclusive (r.append_mechanism_of_redirect ⟨Kind.Redirect, q, d⟩)
    unfold Spf.append_mechanism_of_redirect
    dsimp only
    split
    · intro hc
      exact absurd hc.2 (by simp)
    · intro hc
      simp_all
  | A =>
    show RedirectAllExclusive (r.append_mechanism_of_a ⟨Kind.A, q, d⟩)
    refine exclusive_of_fields h ?_ ?_ <;>
      (unfold Spf.append_mechanism_of_a; split <;> rfl)
  | MX =>
    show RedirectAllExclusive (r.append_mechanism_of_mx ⟨Kind.MX, q, d⟩)
    refine exclusive_of_fields h ?_ ?_ <;>
      (unfold Spf.append_mechanism_of_mx; split <;> rfl)
  | Include =>
    show RedirectAllExclusive (r.append_mechanism_of_include ⟨Kind.Include, q, d⟩)
    refine exclusive_of_fields h ?_ ?_ <;>
      (unfold Spf.append_mechanism_of_include; split <;> rfl)
  | Exists =>
    show RedirectAllExclusive (r.append_mechanism_of_exists ⟨Kind.Exists, q, d⟩)
    refine exclusive_of_fields h ?_ ?_ <;>
      (unfold Spf.append_mechanism_of_exists; split <;> rfl)
  | Ptr =>
    exact exclusive_of_fields h rfl rfl
  | All =>
    show RedirectAllExclusive (r.append_mechanism_of_all ⟨Kind.All, q, d⟩)
    unfold Spf.append_mechanism_of_all
    split
    · intro hc
      simp_all [Option.isNone_iff_eq_none]
    · exact h
  | IpV4 => exact h
  | IpV6 => exact h

theorem applySpfOp_exclusive {r r' : Spf} {op : SpfOp}
    (h : RedirectAllExclusive r) (happ : applySpfOp r op = some r') :
    RedirectAllExclusive r' := by
  cases op with
  | app m =>
    cases happ
    exact append_mechanism_exclusive m h
  | appIp m =>
    rcases m with ⟨k, q, d⟩
    cases k with
    | IpV4 =>
      have : r' = r.append_mechanism_of_ip4 ⟨Kind.IpV4, q, d⟩ := by
        cases happ; rfl
      subst this
      refine exclusive_of_fields h ?_ ?_ <;>
        (unfold Spf.append_mechanism_of_ip4; split <;> rfl)
    | IpV6 =>
      have : r' = r.append_mechanism_of_ip6 ⟨Kind.IpV6, q, d⟩ := by
        cases happ; rfl
      subst this
      refine exclusive_of_fields h ?_ ?_ <;>
        (unfold Spf.append_mechanism_of_ip6; split <;> rfl)
    | Redirect => cases happ
    | A => cases happ
    | MX => cases happ
    | Include => cases happ
    | Exists => cases happ
    | Ptr => cases happ
    | All => cases happ
  | clear k =>
    cases happ
    cases k with
    | Redirect =>
      intro hc
      exact absurd hc.1 (by simp [Spf.clear_mechanism])
    | All =>
      intro hc
      exact absurd hc.2 (by simp [Spf.clear_mechanism])
    | A => exact exclusive_of_fields h rfl rfl
    | MX => exact exclusive_of_fields h rfl rfl
    | Include => exact exclusive_of_fields h rfl rfl
    | IpV4 => exact exclusive_of_fields h rfl rfl
    | IpV6 => exact exclusive_of_fields h rfl rfl
    | Exists => exact exclusive_of_fields h rfl rfl
    | Ptr => exact exclusive_of_fields h rfl rfl

theorem runSpfOps_exclusive :
    ∀ (ops : List SpfOp) (r0 r : Spf),
      RedirectAllExclusive r0 → runSpfOps ops r0 = some r →
      RedirectAllExclusive r := by
  intro ops
  induction ops with
  | nil =>
    intro r0 r h0 h
    cases h
    exact h0
  | cons op ops ih =>
    intro r0 r h0 h
    unfold runSpfOps at h
    cases happ : applySpfOp r0 op with
    | some r1 =>
      rw [happ] at h
      exact ih r1 r (applySpfOp_exclusive h0 happ) h
    | none => rw [happ] at h; cases h

theorem buildSpfStrIpPart_eq {l : List MechanismIp}
    (h : ∀ m ∈ l, m.rrdata.isSome = true) :
    buildSpfStrIpPart l = some (canonicalIpPart l) := by
  induction l with
  | nil => rfl
  | cons m rest ih =>
    have hm : m.rrdata.isSome = true := h m (List.mem_cons_self m rest)
    obtain ⟨n, hn⟩ := Option.isSome_iff_exists.mp hm
    have hrest := ih (fun x hx => h x (List.mem_cons_of_mem _ hx))
    unfold buildSpfStrIpPart MechanismIp.build_string
    rw [hn, hrest]
    unfold canonicalIpPart mechanismIpText
    simp [hn, canonicalIpPart]

set_option maxHeartbeats 2000000 in
/-- C6: the builder renders every record in the fixed group order
version, A-group, MX-group, Include-group, IpV4-group, IpV6-group,
Exists-group, then Ptr if present, then Redirect if the record is
redirected, else All if present and not redirected, joining each group
member with a single leading space — independent of insertion order
(the record stores the groups separately, and the rendering equals the
specification-side `canonicalSpfString`).  The hypotheses exclude the
source's builder panics: a raised is-redirected flag without a stored
redirect, and an IP mechanism without a payload. -/
theorem c6_builder_fixed_group_order (r : Spf)
    (hred : r.is_redirected = true → r.redirect.isSome = true)
    (h4 : ∀ m ∈ r.ip4.getD [], m.rrdata.isSome = true)
    (h6 : ∀ m ∈ r.ip6.getD [], m.rrdata.isSome = true) :
    r.build_spf_string = some (canonicalSpfString r) := by
  obtain ⟨src, ver, fsrc, redir, isred, a, mx, incl, ip4, ip6, ptr, exm, allm,
    wp, wv, iv, w⟩ := r
  dsimp only at hred h4 h6 ⊢
  unfold Spf.build_spf_string canonicalSpfString
  dsimp only
  cases ip4 with
  | none =>
    dsimp only
    cases ip6 with
    | none =>
      dsimp only
      cases a <;> cases mx <;> cases incl <;> cases exm <;> cases ptr <;>
        cases isred <;> cases redir <;> cases allm <;>
          first
          | (simp [buildSpfStrPart, canonicalIpPart, List.append_assoc]; done)
          | (have hh := hred rfl; simp at hh)
    | some l6 =>
      have h6' : ∀ m ∈ l6, m.rrdata.isSome = true := by
        simp only [Option.getD_some] at h6; exact h6
      have hp6 := buildSpfStrIpPart_eq h6'
      dsimp only
      rw [hp6]
      dsimp only
      cases a <;> cases mx <;> cases incl <;> cases exm <;> cases ptr <;>
        cases isred <;> cases redir <;> cases allm <;>
          first
          | (simp [buildSpfStrPart, canonicalIpPart, List.append_assoc]; done)
          | (have hh := hred rfl; simp at hh)
  | some l4 =>
    have h4' : ∀ m ∈ l4, m.rrdata.isSome = true := by
      simp only [Option.getD_some] at h4; exact h4
    have hp4 := buildSpfStrIpPart_eq h4'
    dsimp only
    rw [hp4]
    dsimp only
    cases ip6 with
    | none =>
      dsimp only
      cases a <;> cases mx <;> cases incl <;> cases exm <;> cases ptr <;>
        cases isred <;> cases redir <;> cases allm <;>
          first
          | (simp [buildSpfStrPart, canonicalIpPart, List.append_assoc]; done)
          | (have hh := hred rfl; simp at hh)
    | some l6 =>
      have h6' : ∀ m ∈ l6, m.rrdata.isSome = true := by
        simp only [Option.getD_some] at h6; exact h6
      have hp6 := buildSpfStrIpPart_eq h6'
      dsimp only
      rw [hp6]
      dsimp only
      cases a <;> cases mx <;> cases incl <;> cases exm <;> cases ptr <;>
        cases isred <;> cases redir <;> cases allm <;>
          first
          | (simp [buildSpfStrPart, canonicalIpPart, List.append_assoc]; done)
          | (have hh := hred rfl; simp at hh)

theorem returnAndRemoveQualifier_other {c : Char} (rest : RStr)
    (h1 : c ≠ '+') (h2 : c ≠ '-') (h3 : c ≠ '~') (h4 : c ≠ '?') :
    returnAndRemoveQualifier (c :: rest) = (Qualifier.Pass, c :: rest) := by
  simp [returnAndRemoveQualifier, h1, h2, h3, h4]

theorem returnAndRemoveQualifier_qual {c : Char} (rest : RStr)
    (h : c = '+' ∨ c = '-' ∨ c = '~' ∨ c = '?') :
    (returnAndRemoveQualifier (c :: rest)).2 = rest := by
  rcases h with h | h | h | h <;> subst h <;> simp [returnAndRemoveQualifier]

theorem mechIpFromStr_ip4_v6_core {s : RStr} {n : IpNetwork}
    (hp : ipnetworkParse s = .ok n) (hv6 : n.is_ipv6 = true) (tok : RStr)
    (htok : lcContains (str "ip4:") tok = true)
    (hq : (returnAndRemoveQualifier tok).2 = str "ip4:" ++ s) :
    MechanismIp.from_str tok = .err (MechanismError.NotIP4Network (ipNetworkToString n)) := by
  have hv4 : n.is_ipv4 = false := by
    cases n
    · simp [IpNetwork.is_ipv6] at hv6
    · rfl
  have hc4 : lcContains (str "ip4") (str "ip4:" ++ s) = true := by
    have e : str "ip4:" ++ s = str "ip4" ++ (':' :: s) := rfl
    rw [e]
    exact lcContains_append_self _ _
  have hstrip : stripPfx (str "ip4:") (str "ip4:" ++ s) = some s :=
    stripPfx_append_self _ _
  unfold MechanismIp.from_str
  rw [htok]
  simp only [Bool.true_or, if_true]
  rw [hq, if_pos hc4, hstrip]
  unfold MechanismIp.from_str_stage2
  dsimp only
  rw [hp]
  simp [hv4, hv6, Kind.is_ip_v4, Kind.is_ip_v6]

theorem mechIpFromStr_ip6_v4_core {s : RStr} {n : IpNetwork}
    (hp : ipnetworkParse s = .ok n) (hv4 : n.is_ipv4 = true) (tok : RStr)
    (htok : lcContains (str "ip6:") tok = true)
    (hq : (returnAndRemoveQualifier tok).2 = str "ip6:" ++ s) :
    MechanismIp.from_str tok = .err (MechanismError.NotIP6Network (ipNetworkToString n)) := by
  have hnoi : 'i' ∉ s := ipv4Parse_no_i (ipnetworkParse_v4 hp hv4)
  have hc4 : lcContains (str "ip4") (str "ip6:" ++ s) = false :=
    lcContains_ip4_of_no_i hnoi
  have hc6 : lcContains (str "ip6") (str "ip6:" ++ s) = true := by
    have e : str "ip6:" ++ s = str "ip6" ++ (':' :: s) := rfl
    rw [e]
    exact lcContains_append_self _ _
  have hstrip : stripPfx (str "ip6:") (str "ip6:" ++ s) = some s :=
    stripPfx_append_self _ _
  unfold MechanismIp.from_str
  rw [htok]
  simp only [Bool.or_true, if_true]
  rw [hq, if_neg (by rw [hc4]; exact Bool.false_ne_true), if_pos hc6, hstrip]
  unfold MechanismIp.from_str_stage2
  dsimp only
  rw [hp]
  simp [hv4, Kind.is_ip_v4, Kind.is_ip_v6]

/-! ## Claim theorems -/

/-- C1: the claim says every `all`-suffixed token in a line that passes
the pre-tokenize checks yields a successful parse with an All mechanism
carrying the stripped qualifier; in fact `Mechanism::<String>::from_str`
rejects every such token (it only handles `redirect=` and `include:`), so
the `.unwrap()` in the `all` branch of `Spf::from_str` panics, and parsing
`"v=spf1 a mx ~all"` panics instead of succeeding. -/
theorem c1_all_token_unwrap_panics :
    MechanismStr.from_str (str "~all") =
      .error (MechanismError.NotValidMechanismFormat (str "~all")) ∧
    Spf.from_str (str "v=spf1 a mx ~all") = ParseResult.panics := by
  constructor
  · decide
  · decide

/-- C2: parsing rejects, in order and each terminally, a source that does
not start with `v=spf1` or `spf2.0` (invalid-source), then a source longer
than 255 characters (source-length-exceeded), then a source containing two
consecutive whitespace characters (whitespace-syntax-error). -/
theorem c2_pretokenize_checks (s : RStr) :
    (lcStartsWith (str "v=spf1") s = false → lcStartsWith (str "spf2.0") s = false →
      Spf.from_str s = .err SpfError.InvalidSource) ∧
    ((lcStartsWith (str "v=spf1") s = true ∨ lcStartsWith (str "spf2.0") s = true) →
      s.length > MAX_SPF_STRING_LENGTH →
      Spf.from_str s = .err SpfError.SourceLengthExceeded) ∧
    ((lcStartsWith (str "v=spf1") s = true ∨ lcStartsWith (str "spf2.0") s = true) →
      s.length ≤ MAX_SPF_STRING_LENGTH → spfCheckWhitespace s = true →
      Spf.from_str s = .err SpfError.WhiteSpaceSyntaxError) := by
  refine ⟨?_, ?_, ?_⟩
  · intro h1 h2
    simp [Spf.from_str, h1, h2]
  · rintro (h | h) hlen
    · simp [Spf.from_str, h, hlen]
    · simp [Spf.from_str, h, hlen]
  · rintro (h | h) hlen hws
    · simp [Spf.from_str, h, Nat.not_lt.mpr hlen, hws]
    · simp [Spf.from_str, h, Nat.not_lt.mpr hlen, hws]

/-- Witness for `c2_pretokenize_checks` at concrete inputs. -/
theorem c2_pretokenize_checks_witness :
    Spf.from_str (str "hello") = .err SpfError.InvalidSource ∧
    Spf.from_str (str "v=spf1" ++ List.replicate 250 'a') =
      .err SpfError.SourceLengthExceeded ∧
    Spf.from_str (str "v=spf1 a   mx -all") = .err SpfError.WhiteSpaceSyntaxError :=
  ⟨(c2_pretokenize_checks (str "hello")).1 (by decide) (by decide),
   (c2_pretokenize_checks (str "v=spf1" ++ List.replicate 250 'a')).2.1
     (Or.inl (by decide)) (by decide),
   (c2_pretokenize_checks (str "v=spf1 a   mx -all")).2.2
     (Or.inl (by decide)) (by decide) (by decide)⟩

/-- C3 counterexample: a `-`-qualified redirect token does not carry the
Fail qualifier — the constructed Redirect mechanism's qualifier is
hardcoded to Pass. -/
theorem c3_redirect_qualifier_counterexample :
    MechanismStr.from_str (str "-redirect=example.com") =
      .ok (Mechanism.new Kind.Redirect Qualifier.Pass (some (str "example.com"))) ∧
    Qualifier.Pass ≠ Qualifier.Fail := by
  constructor
  · decide
  · decide

/-- C3 (amended): for every token containing `redirect=`, classification
constructs a Redirect mechanism with the hardcoded Pass qualifier (no
qualifier stripping) whose payload is the piece after the rightmost `=`;
during a record parse the redirect is installed and the is-redirected
flag is set. -/
theorem c3_redirect_classification :
    (∀ s : RStr, lcContains (str "redirect=") s = true →
      MechanismStr.from_str s =
        .ok (Mechanism.new Kind.Redirect Qualifier.Pass (some (afterLast '=' s)))) ∧
    Spf.from_str (str "v=spf1 -redirect=example.com") =
      .ok { Spf.default with
              source := str "v=spf1 -redirect=example.com",
              version := str "v=spf1",
              redirect := some (Mechanism.new Kind.Redirect Qualifier.Pass
                (some (str "example.com"))),
              is_redirected := true, was_parsed := true, is_valid := true } := by
  constructor
  · intro s h
    simp [MechanismStr.from_str, h]
  · decide

/-- Witness for `c3_redirect_classification` at a concrete token. -/
theorem c3_redirect_classification_witness :
    lcContains (str "redirect=") (str "~redirect=example.net") = true ∧
    MechanismStr.from_str (str "~redirect=example.net") =
      .ok (Mechanism.new Kind.Redirect Qualifier.Pass (some (str "example.net"))) := by
  refine ⟨by decide, ?_⟩
  have h := c3_redirect_classification.1 (str "~redirect=example.net") (by decide)
  rw [h]
  decide

/-- C5: an unparsable `ip4:` remainder is returned as the fatal invalid-ip
error when scanning reaches it, but a preceding `all`-suffixed token makes
the parse panic first (the `.unwrap()` slip of C1), so the claimed "the
whole parse fails with the invalid-ip error" does not hold for every such
line. -/
theorem c5_invalid_ip_fatal_vs_all_panic :
    Spf.from_str (str "v=spf1 ip4:notanip a") =
      .err (SpfError.InvalidIPAddr (str "invalid address: notanip")) ∧
    Spf.from_str (str "v=spf1 ~all ip4:notanip") = ParseResult.panics := by
  constructor
  · decide
  · decide

/-- C9: `try_validate` on an already-parsed record whose serialized form
is longer than 255 characters returns success — the length check is dead
code (`from_src` is never set) and inspects the stored source rather than
the serialized form — where the claim demands the source-length-exceeded
error. -/
theorem c9_validator_skips_length_check :
    overlongParsedRecord.was_parsed = true ∧
    overlongParsedRecord.from_src = false ∧
    (overlongParsedRecord.build_spf_string).map List.length = some 306 ∧
    MAX_SPF_STRING_LENGTH < 306 ∧
    overlongParsedRecord.try_validate =
      .ok { overlongParsedRecord with is_valid := true } := by
  refine ⟨by decide, by decide, by decide, by decide, by decide⟩

/-- Witness for `c6_builder_fixed_group_order`: a record whose mechanisms
were appended out of canonical order (All, MX, A, Ptr) still renders in
the fixed group order. -/
theorem c6_builder_fixed_group_order_witness :
    (outOfOrderRecord.is_redirected = true → outOfOrderRecord.redirect.isSome = true) ∧
    (∀ m ∈ outOfOrderRecord.ip4.getD [], m.rrdata.isSome = true) ∧
    (∀ m ∈ outOfOrderRecord.ip6.getD [], m.rrdata.isSome = true) ∧
    outOfOrderRecord.build_spf_string = some (canonicalSpfString outOfOrderRecord) ∧
    canonicalSpfString outOfOrderRecord = str "v=spf1 ?a mx ptr ~all" :=
  ⟨by decide, by decide, by decide,
   c6_builder_fixed_group_order outOfOrderRecord (by decide) (by decide) (by decide),
   by decide⟩

/-- C7: appending a Redirect clears any pending All and installs the
redirect; appending an All while a redirect is present is a no-op; and no
record reachable from the empty record through the append/clear API holds
both a redirect and an All mechanism. -/
theorem c7_redirect_all_mutual_exclusion :
    (∀ (r : Spf) (m : MechanismStr), m.kind = Kind.Redirect →
      (r.append_mechanism m).all = none ∧ (r.append_mechanism m).redirect = some m) ∧
    (∀ (r : Spf) (m : MechanismStr), m.kind = Kind.All → r.redirect.isSome = true →
      r.append_mechanism m = r) ∧
    (∀ (ops : List SpfOp) (r : Spf), runSpfOps ops Spf.new = some r →
      ¬(r.redirect.isSome = true ∧ r.all.isSome = true)) := by
  refine ⟨?_, ?_, ?_⟩
  · intro r m hk
    rcases m with ⟨k, q, d⟩
    have hk' : k = Kind.Redirect := hk
    subst hk'
    show (r.append_mechanism_of_redirect ⟨Kind.Redirect, q, d⟩).all = none ∧
      (r.append_mechanism_of_redirect ⟨Kind.Redirect, q, d⟩).redirect =
        some ⟨Kind.Redirect, q, d⟩
    unfold Spf.append_mechanism_of_redirect
    dsimp only
    split
    · exact ⟨rfl, rfl⟩
    · rename_i hcond
      refine ⟨?_, rfl⟩
      cases hall : r.all with
      | none => simp [hall]
      | some v => exact absurd (by simp [hall]) hcond
  · intro r m hk hr
    rcases m with ⟨k, q, d⟩
    have hk' : k = Kind.All := hk
    subst hk'
    show r.append_mechanism_of_all ⟨Kind.All, q, d⟩ = r
    unfold Spf.append_mechanism_of_all
    cases hrd : r.redirect with
    | none => rw [hrd] at hr; simp at hr
    | some v => simp [hrd]
  · intro ops r h
    exact runSpfOps_exclusive ops Spf.new r (fun hc => absurd hc.1 (by decide)) h

/-- Witness for `c7_redirect_all_mutual_exclusion` at concrete records and
a concrete operation sequence. -/
theorem c7_redirect_all_mutual_exclusion_witness :
    (Mechanism.new_redirect Qualifier.Pass (str "ex.com")).kind = Kind.Redirect ∧
    redirectedRecord.all = none ∧
    redirectedRecord.redirect = some (Mechanism.new_redirect Qualifier.Pass (str "ex.com")) ∧
    (Mechanism.new_all Qualifier.Pass).kind = Kind.All ∧
    redirectedRecord.redirect.isSome = true ∧
    redirectedRecord.append_mechanism (Mechanism.new_all Qualifier.Pass) = redirectedRecord ∧
    runSpfOps appendDemoOps Spf.new = some appendDemoRecord ∧
    ¬(appendDemoRecord.redirect.isSome = true ∧ appendDemoRecord.all.isSome = true) :=
  ⟨by decide,
   (c7_redirect_all_mutual_exclusion.1 Spf.new
     (Mechanism.new_redirect Qualifier.Pass (str "ex.com")) rfl).1,
   (c7_redirect_all_mutual_exclusion.1 Spf.new
     (Mechanism.new_redirect Qualifier.Pass (str "ex.com")) rfl).2,
   by decide, by decide,
   c7_redirect_all_mutual_exclusion.2.1 redirectedRecord
     (Mechanism.new_all Qualifier.Pass) rfl (by decide),
   by decide,
   c7_redirect_all_mutual_exclusion.2.2 appendDemoOps appendDemoRecord (by decide)⟩

/-- C4 counterexample: during a full record parse, an IPv6 literal under
an `ip4:` token is accepted without any family check — the parse succeeds
and installs an IpV4-kind mechanism holding the IPv6 network, where the
claim demands the not-IP4-network error. -/
theorem c4_record_parse_family_counterexample :
    Spf.from_str (str "v=spf1 ip4:2001:db8:0:0:0:0:0:0/32") =
      .ok { Spf.default with
              source := str "v=spf1 ip4:2001:db8:0:0:0:0:0:0/32",
              version := str "v=spf1",
              ip4 := some [Mechanism.new_ip4 Qualifier.Pass
                (IpNetwork.v6 0x2001 0xdb8 0 0 0 0 0 0 32)],
              was_parsed := true, is_valid := true } ∧
    (IpNetwork.v6 0x2001 0xdb8 0 0 0 0 0 0 32).is_ipv6 = true := by
  constructor
  · decide
  · decide

/-- C4 (amended): the family-mismatch errors are produced by the
standalone `Mechanism<IpNetwork>` text constructor — an `ip4:` token with
a valid IPv6 network literal (with or without a qualifier character)
yields the not-IP4-network error and symmetrically for `ip6:` with an
IPv4 literal — but a full record parse performs no family check and
accepts the mismatched literal. -/
theorem c4_family_mismatch_classification :
    (∀ (s : RStr) (n : IpNetwork), ipnetworkParse s = .ok n → n.is_ipv6 = true →
      MechanismIp.from_str (str "ip4:" ++ s) =
        .err (MechanismError.NotIP4Network (ipNetworkToString n)) ∧
      ∀ qc : Char, qc = '+' ∨ qc = '-' ∨ qc = '~' ∨ qc = '?' →
        MechanismIp.from_str (qc :: (str "ip4:" ++ s)) =
          .err (MechanismError.NotIP4Network (ipNetworkToString n))) ∧
    (∀ (s : RStr) (n : IpNetwork), ipnetworkParse s = .ok n → n.is_ipv4 = true →
      MechanismIp.from_str (str "ip6:" ++ s) =
        .err (MechanismError.NotIP6Network (ipNetworkToString n)) ∧
      ∀ qc : Char, qc = '+' ∨ qc = '-' ∨ qc = '~' ∨ qc = '?' →
        MechanismIp.from_str (qc :: (str "ip6:" ++ s)) =
          .err (MechanismError.NotIP6Network (ipNetworkToString n))) ∧
    Spf.from_str (str "v=spf1 ip6:1.2.3.4/24") =
      .ok { Spf.default with
              source := str "v=spf1 ip6:1.2.3.4/24",
              version := str "v=spf1",
              ip6 := some [Mechanism.new_ip6 Qualifier.Pass (IpNetwork.v4 1 2 3 4 24)],
              was_parsed := true, is_valid := true } := by
  refine ⟨?_, ?_, by decide⟩
  · intro s n hp hv6
    constructor
    · have e : str "ip4:" ++ s = 'i' :: (str "p4:" ++ s) := rfl
      have hq : (returnAndRemoveQualifier (str "ip4:" ++ s)).2 = str "ip4:" ++ s := by
        rw [e, returnAndRemoveQualifier_other _ (by decide) (by decide) (by decide) (by decide)]
      exact mechIpFromStr_ip4_v6_core hp hv6 _ (lcContains_append_self _ _) hq
    · intro qc hqc
      have hq : (returnAndRemoveQualifier (qc :: (str "ip4:" ++ s))).2 = str "ip4:" ++ s :=
        returnAndRemoveQualifier_qual _ hqc
      have htok : lcContains (str "ip4:") (qc :: (str "ip4:" ++ s)) = true :=
        lcContains_cons_of qc (lcContains_append_self _ _)
      exact mechIpFromStr_ip4_v6_core hp hv6 _ htok hq
  · intro s n hp hv4
    constructor
    · have e : str "ip6:" ++ s = 'i' :: (str "p6:" ++ s) := rfl
      have hq : (returnAndRemoveQualifier (str "ip6:" ++ s)).2 = str "ip6:" ++ s := by
        rw [e, returnAndRemoveQualifier_other _ (by decide) (by decide) (by decide) (by decide)]
      exact mechIpFromStr_ip6_v4_core hp hv4 _ (lcContains_append_self _ _) hq
    · intro qc hqc
      have hq : (returnAndRemoveQualifier (qc :: (str "ip6:" ++ s))).2 = str "ip6:" ++ s :=
        returnAndRemoveQualifier_qual _ hqc
      have htok : lcContains (str "ip6:") (qc :: (str "ip6:" ++ s)) = true :=
        lcContains_cons_of qc (lcContains_append_self _ _)
      exact mechIpFromStr_ip6_v4_core hp hv4 _ htok hq

/-- Witness for `c4_family_mismatch_classification` at concrete tokens. -/
theorem c4_family_mismatch_classification_witness :
    ipnetworkParse (str "2001:db8:0:0:0:0:0:0/32") =
      .ok (IpNetwork.v6 0x2001 0xdb8 0 0 0 0 0 0 32) ∧
    (IpNetwork.v6 0x2001 0xdb8 0 0 0 0 0 0 32).is_ipv6 = true ∧
    MechanismIp.from_str (str "ip4:" ++ str "2001:db8:0:0:0:0:0:0/32") =
      .err (MechanismError.NotIP4Network
        (ipNetworkToString (IpNetwork.v6 0x2001 0xdb8 0 0 0 0 0 0 32))) ∧
    ipnetworkParse (str "1.2.3.4/24") = .ok (IpNetwork.v4 1 2 3 4 24) ∧
    (IpNetwork.v4 1 2 3 4 24).is_ipv4 = true ∧
    MechanismIp.from_str ('-' :: (str "ip6:" ++ str "1.2.3.4/24")) =
      .err (MechanismError.NotIP6Network (ipNetworkToString (IpNetwork.v4 1 2 3 4 24))) :=
  ⟨by decide, by decide,
   (c4_family_mismatch_classification.1 (str "2001:db8:0:0:0:0:0:0/32")
     (IpNetwork.v6 0x2001 0xdb8 0 0 0 0 0 0 32) (by decide) (by decide)).1,
   by decide, by decide,
   (c4_family_mismatch_classification.2.1 (str "1.2.3.4/24")
     (IpNetwork.v4 1 2 3 4 24) (by decide) (by decide)).2 '-' (by decide)⟩

/-- C8 counterexample: with two version-marker tokens the record's version
is the last one seen, not the first — parsing `"v=spf1 spf2.0/pra"` yields
version `spf2.0/pra`. -/
theorem c8_first_marker_counterexample :
    Spf.from_str (str "v=spf1 spf2.0/pra") =
      .ok { Spf.default with
              source := str "v=spf1 spf2.0/pra",
              version := str "spf2.0/pra",
              was_parsed := true, is_valid := true } ∧
    str "spf2.0/pra" ≠ str "v=spf1" := by
  constructor
  · decide
  · decide

/-- C8 (amended): every version-marker token overwrites the version, so a
successful parse leaves the version equal to the last marker token of the
line (the fold `lastMarkerFrom`), with scanning continuing over the
remaining tokens. -/
theorem c8_last_marker_wins (s : RStr) (r : Spf) (h : Spf.from_str s = .ok r) :
    r.version = lastMarkerFrom [] (splitWs s) := by
  unfold Spf.from_str at h
  split at h
  · cases h
  · split at h
    · cases h
    · split at h
      · cases h
      · cases hm : processTokens (splitWs s) { spf := Spf.new, vecs := ParseVecs.empty } with
        | ok spf =>
          rw [hm] at h
          cases h
          exact processTokens_version (splitWs s) _ _ hm
        | err e => rw [hm] at h; cases h
        | panics => rw [hm] at h; cases h

/-- Witness for `c8_last_marker_wins` at a concrete three-marker line. -/
theorem c8_last_marker_wins_witness :
    Spf.from_str (str "v=spf1 spf2.0/pra spf2.0/mfrom") = .ok dupMarkerRecord ∧
    dupMarkerRecord.version =
      lastMarkerFrom [] (splitWs (str "v=spf1 spf2.0/pra spf2.0/mfrom")) :=
  ⟨by decide,
   c8_last_marker_wins (str "v=spf1 spf2.0/pra spf2.0/mfrom") dupMarkerRecord (by decide)⟩

/-- C10: the `new_ip`, `new_ip4` and `new_ip6` factories only produce
IpV4- or IpV6-kind mechanisms (`new_ip` selecting IpV4 exactly for IPv4
networks), so `append_ip_mechanism` never reaches its `unreachable!`
branch on them; the generic `new` constructor with any other kind makes
`append_ip_mechanism` panic (`none`). -/
theorem c10_ip_factories_and_append_safety :
    (∀ (q : Qualifier) (n : IpNetwork),
      ((Mechanism.new_ip q n).kind = Kind.IpV4 ∨ (Mechanism.new_ip q n).kind = Kind.IpV6) ∧
      ((Mechanism.new_ip q n).kind = Kind.IpV4 ↔ n.is_ipv4 = true) ∧
      (Mechanism.new_ip4 q n).kind = Kind.IpV4 ∧
      (Mechanism.new_ip6 q n).kind = Kind.IpV6) ∧
    (∀ (r : Spf) (q : Qualifier) (n : IpNetwork),
      (r.append_ip_mechanism (Mechanism.new_ip q n)).isSome = true ∧
      (r.append_ip_mechanism (Mechanism.new_ip4 q n)).isSome = true ∧
      (r.append_ip_mechanism (Mechanism.new_ip6 q n)).isSome = true) ∧
    (∀ (r : Spf) (k : Kind) (q : Qualifier) (d : Option IpNetwork),
      k ≠ Kind.IpV4 → k ≠ Kind.IpV6 →
      r.append_ip_mechanism (Mechanism.new k q d) = none) := by
  refine ⟨?_, ?_, ?_⟩
  · intro q n
    cases n <;>
      simp [Mechanism.new_ip, Mechanism.new_ip4, Mechanism.new_ip6, Mechanism.new,
        IpNetwork.is_ipv4]
  · intro r q n
    cases n <;>
      simp [Mechanism.new_ip, Mechanism.new_ip4, Mechanism.new_ip6, Mechanism.new,
        IpNetwork.is_ipv4, Spf.append_ip_mechanism]
  · intro r k q d h4 h6
    cases k <;> first | rfl | exact absurd rfl h4 | exact absurd rfl h6

/-- Witness for `c10_ip_factories_and_append_safety` at concrete values. -/
theorem c10_ip_factories_and_append_safety_witness :
    Kind.All ≠ Kind.IpV4 ∧ Kind.All ≠ Kind.IpV6 ∧
    Spf.new.append_ip_mechanism (Mechanism.new Kind.All Qualifier.Pass none) = none ∧
    (Spf.new.append_ip_mechanism
      (Mechanism.new_ip Qualifier.Pass (IpNetwork.v4 1 2 3 4 24))).isSome = true :=
  ⟨by decide, by decide,
   c10_ip_factories_and_append_safety.2.2 Spf.new Kind.All Qualifier.Pass none
     (by decide) (by decide),
   (c10_ip_factories_and_append_safety.2.1 Spf.new Qualifier.Pass
     (IpNetwork.v4 1 2 3 4 24)).1⟩
